import Mathlib

/-!
Verification of the durable Discord-notification delivery pipeline:
the persistent queue (`src/queue/persistent-queue.ts`), the delivery
worker (`src/queue/worker.ts`) and the webhook transport
(`postDiscordWebhook` in `src/index.ts`).

The development is a shallow embedding: every definition mirrors the
corresponding TypeScript source.  JavaScript numbers appearing in the
rate-limit logic are modelled as exact rationals (`ℚ`) plus an explicit
non-finite marker; machine floats are not modelled.  JSON serialization
(`JSON.stringify` / `JSON.parse`) of queue payloads is modelled by an
executable printer and recursive-descent parser over a JSON value type,
together with a proved round-trip theorem.
-/

namespace DiscordNotify

/-! ## JSON values

`JsonV` models the JSON-representable payloads stored in the queue
(`webhook_body TEXT`).  Arrays and objects are given by the auxiliary
mutual types `JArr`/`JObj` so that structural recursion is available.
Numbers are modelled as integers. -/
mutual

inductive JsonV where
  | null : JsonV
  | bool (b : Bool) : JsonV
  | num (n : Int) : JsonV
  | str (s : String) : JsonV
  | arr (xs : JArr) : JsonV
  | obj (fs : JObj) : JsonV
deriving DecidableEq

inductive JArr where
  | nil : JArr
  | cons (hd : JsonV) (tl : JArr) : JArr
deriving DecidableEq

inductive JObj where
  | nil : JObj
  | cons (k : String) (v : JsonV) (tl : JObj) : JObj
deriving DecidableEq

end

/-! ### Decimal digits -/
def digitChar : Nat → Char
  | 0 => '0' | 1 => '1' | 2 => '2' | 3 => '3' | 4 => '4'
  | 5 => '5' | 6 => '6' | 7 => '7' | 8 => '8' | _ => '9'

def charToDigit? (c : Char) : Option Nat :=
  if c = '0' then some 0
  else if c = '1' then some 1
  else if c = '2' then some 2
  else if c = '3' then some 3
  else if c = '4' then some 4
  else if c = '5' then some 5
  else if c = '6' then some 6
  else if c = '7' then some 7
  else if c = '8' then some 8
  else if c = '9' then some 9
  else none

def isDigitChar (c : Char) : Bool := (charToDigit? c).isSome

/-- Reference form of the decimal digits of a natural number, most
significant first (well-founded recursion; used for reasoning). -/
def natCharsSpec (n : Nat) : List Char :=
  if _h : n < 10 then [digitChar n]
  else natCharsSpec (n / 10) ++ [digitChar (n % 10)]
termination_by n
decreasing_by exact Nat.div_lt_self (by omega) (by omega)

/-- Executable digit printer (fuel recursion, so the kernel can
evaluate it). -/
def natCharsAux : Nat → Nat → List Char → List Char
  | 0, _, acc => acc
  | fuel+1, n, acc =>
    if n < 10 then digitChar n :: acc
    else natCharsAux fuel (n / 10) (digitChar (n % 10) :: acc)

/-- Decimal digits of a natural number, most significant first (the
form produced by JavaScript's number-to-string conversion). -/
def natChars (n : Nat) : List Char := natCharsAux (n + 1) n []

/-- Decimal form of an integer. -/
def intChars (n : Int) : List Char :=
  if n < 0 then '-' :: natChars n.natAbs else natChars n.toNat

/-! ### Number parsing -/
/-- Split off the longest prefix of decimal digits. -/
def spanDigits : List Char → List Char × List Char
  | [] => ([], [])
  | c :: cs =>
    if isDigitChar c then
      let p := spanDigits cs
      (c :: p.1, p.2)
    else ([], c :: cs)

/-- Value of a digit string, most significant digit first. -/
def digitsVal (ds : List Char) : Nat :=
  ds.foldl (fun a c => 10 * a + (charToDigit? c).getD 0) 0

/-- Parse a nonempty run of decimal digits. -/
def parseNat? (cs : List Char) : Option (Nat × List Char) :=
  let p := spanDigits cs
  if p.1 = [] then none else some (digitsVal p.1, p.2)

/-- `rest` does not begin with a decimal digit (so greedy number
parsing stops exactly at the serialized number's boundary). -/
def NoDigitHead (rest : List Char) : Prop :=
  ∀ c, rest.head? = some c → isDigitChar c = false

/-! ### String escaping

`JSON.stringify` escapes `"` and `\` inside string literals; the model
prints all other characters verbatim and the parser accepts `\c` as `c`
for any `c`, which is enough for the printer/parser round trip. -/
def escChar (c : Char) : List Char :=
  if c = '"' ∨ c = '\\' then ['\\', c] else [c]

def escChars : List Char → List Char
  | [] => []
  | c :: cs => escChar c ++ escChars cs

/-- The serialized form of a JSON string literal, quotes included. -/
def strChars (s : String) : List Char := '"' :: (escChars s.data ++ ['"'])

/-- Parse the body of a string literal (the opening quote has already
been consumed).  The flag records a pending backslash escape. -/
def parseStrBodyAux : Bool → List Char → Option (List Char × List Char)
  | _, [] => none
  | true, c :: rest => (parseStrBodyAux false rest).map fun p => (c :: p.1, p.2)
  | false, c :: rest =>
    if c = '"' then some ([], rest)
    else if c = '\\' then parseStrBodyAux true rest
    else (parseStrBodyAux false rest).map fun p => (c :: p.1, p.2)

def parseStrBody (cs : List Char) : Option (List Char × List Char) :=
  parseStrBodyAux false cs

/-! ### Serialization (`JSON.stringify`) -/
/-- The keyword literals of the JSON grammar. -/
def nullLit : List Char := 'n' :: ['u', 'l', 'l']

def trueLit : List Char := 't' :: ['r', 'u', 'e']

def falseLit : List Char := 'f' :: ['a', 'l', 's', 'e']

mutual

/-- Characters of the serialized JSON value (`JSON.stringify`). -/
def jsonChars : JsonV → List Char
  | .null => nullLit
  | .bool true => trueLit
  | .bool false => falseLit
  | .num n => intChars n
  | .str s => strChars s
  | .arr xs => '[' :: (arrBodyChars xs ++ [']'])
  | .obj fs => '\x7b' :: (objBodyChars fs ++ ['\x7d'])

def arrBodyChars : JArr → List Char
  | .nil => []
  | .cons v tl => jsonChars v ++ arrTailChars tl

def arrTailChars : JArr → List Char
  | .nil => []
  | .cons v tl => ',' :: (jsonChars v ++ arrTailChars tl)

def objBodyChars : JObj → List Char
  | .nil => []
  | .cons k v tl => strChars k ++ (':' :: jsonChars v) ++ objTailChars tl

def objTailChars : JObj → List Char
  | .nil => []
  | .cons k v tl => ',' :: (strChars k ++ (':' :: jsonChars v) ++ objTailChars tl)

end

def jsonStringify (v : JsonV) : String := String.mk (jsonChars v)

/-! ### Parsing (`JSON.parse`, restricted to the printer's output
format: no insignificant whitespace) -/
mutual

def parseVal : Nat → List Char → Option (JsonV × List Char)
  | 0, _ => none
  | fuel+1, cs =>
    match cs with
    | [] => none
    | c :: rest =>
      if isDigitChar c then
        (parseNat? (c :: rest)).map fun p => (JsonV.num (p.1 : Int), p.2)
      else if c = '-' then
        (parseNat? rest).map fun p => (JsonV.num (-(p.1 : Int)), p.2)
      else if c = '"' then
        (parseStrBody rest).map fun p => (JsonV.str (String.mk p.1), p.2)
      else if c = '[' then
        if rest.head? = some ']' then some (JsonV.arr JArr.nil, rest.tail)
        else (parseArr fuel rest).map fun p => (JsonV.arr p.1, p.2)
      else if c = '\x7b' then
        if rest.head? = some '\x7d' then some (JsonV.obj JObj.nil, rest.tail)
        else (parseObj fuel rest).map fun p => (JsonV.obj p.1, p.2)
      else if c = 'n' then
        if rest.take 3 = ['u', 'l', 'l'] then some (JsonV.null, rest.drop 3) else none
      else if c = 't' then
        if rest.take 3 = ['r', 'u', 'e'] then some (JsonV.bool true, rest.drop 3) else none
      else if c = 'f' then
        if rest.take 4 = ['a', 'l', 's', 'e'] then some (JsonV.bool false, rest.drop 4)
        else none
      else none

def parseArr : Nat → List Char → Option (JArr × List Char)
  | 0, _ => none
  | fuel+1, cs =>
    match parseVal fuel cs with
    | none => none
    | some (v, rest) =>
      if rest.head? = some ',' then
        match parseArr fuel rest.tail with
        | none => none
        | some (tl, r2) => some (JArr.cons v tl, r2)
      else if rest.head? = some ']' then some (JArr.cons v JArr.nil, rest.tail)
      else none

def parseObj : Nat → List Char → Option (JObj × List Char)
  | 0, _ => none
  | fuel+1, cs =>
    if cs.head? = some '"' then
      match parseStrBody cs.tail with
      | none => none
      | some (k, rest) =>
        if rest.head? = some ':' then
          match parseVal fuel rest.tail with
          | none => none
          | some (v, rest2) =>
            if rest2.head? = some ',' then
              match parseObj fuel rest2.tail with
              | none => none
              | some (tl, r3) => some (JObj.cons (String.mk k) v tl, r3)
            else if rest2.head? = some '\x7d' then
              some (JObj.cons (String.mk k) v JObj.nil, rest2.tail)
            else none
        else none
    else none

end

/-- `JSON.parse` of a whole document: the entire input must be
consumed. -/
def jsonParse (s : String) : Option JsonV :=
  match parseVal (s.data.length + 1) s.data with
  | some (v, []) => some v
  | _ => none

/-! ### Size measures for the fuel bound -/
mutual

def jsize : JsonV → Nat
  | .arr xs => asize xs + 1
  | .obj fs => osize fs + 1
  | _ => 1

def asize : JArr → Nat
  | .nil => 1
  | .cons v tl => max (jsize v) (asize tl) + 1

def osize : JObj → Nat
  | .nil => 1
  | .cons _ v tl => max (jsize v) (osize tl) + 1

end

/-! ## Persistent queue (`PersistentQueue` over the `discord_queue`
table, `src/queue/persistent-queue.ts`)

A database state is the list of rows in insertion order together with
the `AUTOINCREMENT` counter.  SQL statements are modelled as pure
functions on this state. -/
structure Row where
  id : Nat
  session_id : String
  thread_id : Option String
  webhook_body : String
  created_at : Nat
  retry_count : Nat
  last_error : Option String
deriving DecidableEq

structure DB where
  rows : List Row
  nextId : Nat
deriving DecidableEq

/-- A freshly created table: no rows, `AUTOINCREMENT` starts at 1. -/
def DB.empty : DB := ⟨[], 1⟩

/-- The message record returned by `dequeue` (camel-cased fields, the
payload deserialized from its TEXT column). -/
structure QMsg where
  id : Nat
  sessionId : String
  threadId : Option String
  webhookBody : Option JsonV
  createdAt : Nat
  retryCount : Nat
  lastError : Option String
deriving DecidableEq

/-- The argument of `enqueue` (`Omit<QueueMessage, 'id' | 'createdAt'
| 'retryCount' | 'lastError'>`). -/
structure EnqueueInput where
  sessionId : String
  threadId : Option String
  webhookBody : JsonV
deriving DecidableEq

/-- `enqueue`: INSERT INTO discord_queue (session_id, thread_id,
webhook_body, created_at) VALUES (?, ?, ?, ?) with
`JSON.stringify(message.webhookBody)` and `Date.now()` (passed here as
`now`); `retry_count` defaults to 0 and `last_error` to NULL. -/
def enqueueRow (m : EnqueueInput) (now : Nat) (db : DB) : Row :=
  { id := db.nextId, session_id := m.sessionId, thread_id := m.threadId,
    webhook_body := jsonStringify m.webhookBody, created_at := now,
    retry_count := 0, last_error := none }

def enqueue (m : EnqueueInput) (now : Nat) (db : DB) : DB :=
  { rows := db.rows ++ [enqueueRow m now db], nextId := db.nextId + 1 }

/-- The ORDER BY key of `dequeue`: `created_at ASC, id ASC`. -/
def rowKeyLE (a b : Row) : Prop :=
  a.created_at < b.created_at ∨ (a.created_at = b.created_at ∧ a.id ≤ b.id)

instance : DecidableRel rowKeyLE := fun a b => by
  unfold rowKeyLE
  exact inferInstance

instance : IsTotal Row rowKeyLE :=
  ⟨fun a b => by unfold rowKeyLE; omega⟩

instance : IsTrans Row rowKeyLE :=
  ⟨fun a b c => by unfold rowKeyLE; omega⟩

/-- The rows selected by `dequeue(limit)`: ORDER BY (created_at, id)
ascending, LIMIT `limit`. -/
def dequeueRows (db : DB) (limit : Nat) : List Row :=
  (List.insertionSort rowKeyLE db.rows).take limit

/-- Column-to-field mapping of the `rows.map((row) => ...)` in
`dequeue`, including `JSON.parse(row.webhook_body)`. -/
def rowToMessage (r : Row) : QMsg :=
  { id := r.id, sessionId := r.session_id, threadId := r.thread_id,
    webhookBody := jsonParse r.webhook_body, createdAt := r.created_at,
    retryCount := r.retry_count, lastError := r.last_error }

/-- `dequeue(limit)`: a SELECT, so the database state is returned
unchanged alongside the result. -/
def dequeue (db : DB) (limit : Nat) : List QMsg × DB :=
  ((dequeueRows db limit).map rowToMessage, db)

/-- `updateThreadId`: UPDATE discord_queue SET thread_id = ? WHERE
session_id = ? AND thread_id IS NULL. -/
def updateThreadId (sessionId threadId : String) (db : DB) : DB :=
  { db with rows := db.rows.map fun r =>
      if r.session_id = sessionId ∧ r.thread_id = none then
        { r with thread_id := some threadId }
      else r }

/-- `delete`: DELETE FROM discord_queue WHERE id = ?. -/
def deleteRow (id : Nat) (db : DB) : DB :=
  { db with rows := db.rows.filter fun r => r.id ≠ id }

/-- `updateRetryCount`: UPDATE discord_queue SET retry_count = ?,
last_error = ? WHERE id = ?. -/
def updateRetryCount (id retryCount : Nat) (lastError : String) (db : DB) : DB :=
  { db with rows := db.rows.map fun r =>
      if r.id = id then
        { r with retry_count := retryCount, last_error := some lastError }
      else r }

/-- `count`: SELECT COUNT(*). -/
def countRows (db : DB) : Nat := db.rows.length

/-- Insertion-order consistency: along the list of rows, ids strictly
increase and timestamps never decrease.  Every state reachable from an
empty table by `enqueue` calls under a monotone clock satisfies this
(see `DBWF_enqueue`). -/
def DBOrdered (db : DB) : Prop :=
  List.Pairwise (fun a b => a.created_at ≤ b.created_at ∧ a.id < b.id) db.rows

/-- Full well-formedness: ordered rows plus the id counter dominating
every stored id. -/
def DBWF (db : DB) : Prop :=
  DBOrdered db ∧ ∀ r ∈ db.rows, r.id < db.nextId

/-! ## Delivery worker (`QueueWorker`, `src/queue/worker.ts`)

The worker's interaction with its collaborators (queue, transport,
alert sink, thread-created callback) is modelled as a trace of
effects.  The transport is an injected dependency, so a delivery
attempt's outcome (`PostOutcome`) is an input of the model. -/
def MAX_RETRIES : Nat := 5

def POLL_INTERVAL_MS : Nat := 1000

def BATCH_SIZE : Nat := 1

/-- The fields of a dequeued `QueueMessage` the worker reads.
`retryCount` is optional in the TypeScript type (`retryCount?`), hence
an `Option`. -/
structure WMsg where
  id : Nat
  sessionId : String
  threadId : Option String
  retryCount : Option Nat
deriving DecidableEq

/-- A successful transport result (`DiscordWebhookMessageResponse`). -/
structure WebhookRes where
  id : String
  channel_id : String
deriving DecidableEq

/-- Outcome of the awaited `postWebhook` call: resolved (possibly with
no parsed response) or rejected with an error message. -/
inductive PostOutcome where
  | ok (res : Option WebhookRes)
  | fail (msg : String)
deriving DecidableEq

/-- Observable effects of the worker. -/
inductive WEff where
  | dequeue (limit : Nat)
  | post (threadId : Option String) (wait : Bool) (threadName : Option String)
  | updateThreadId (sessionId threadId : String)
  | threadCreated (sessionId threadId : String)
  | deleteRow (id : Nat)
  | updateRetryCount (id retryCount : Nat) (lastError : String)
  | alert (key title message variant : String)
  | stopCall
  | sleepPoll (ms : Nat)
deriving DecidableEq

/-- Worker dependencies the model needs: whether the optional
`onThreadCreated` callback was supplied, and `buildThreadName`. -/
structure WDeps where
  hasOnThreadCreated : Bool
  buildThreadName : String → String

/-- `QueueWorker.processMessage`, as the trace of effects it performs
given the transport outcome of its single `postWebhook` call. -/
def processMessage (deps : WDeps) (m : WMsg) (o : PostOutcome) : List WEff :=
  match o with
  | .ok res =>
    match m.threadId with
    | none =>
      WEff.post none true (some (deps.buildThreadName m.sessionId)) ::
        ((match res with
          | some r =>
            if r.channel_id ≠ "" then
              WEff.updateThreadId m.sessionId r.channel_id ::
                (if deps.hasOnThreadCreated then
                  [WEff.threadCreated m.sessionId r.channel_id]
                else [])
            else []
          | none => []) ++ [WEff.deleteRow m.id])
    | some tid => [WEff.post (some tid) false none, WEff.deleteRow m.id]
  | .fail msg =>
    let r := m.retryCount.getD 0
    if r < MAX_RETRIES then
      [WEff.updateRetryCount m.id (r + 1) (if msg = "" then "Unknown error" else msg),
       WEff.alert ("discord_queue_retry:" ++ toString m.id) "Discord notification retry"
         ("Failed to send notification. Retry " ++ toString (r + 1) ++ "/5. Error: " ++ msg)
         "warning"]
    else
      [WEff.alert ("discord_queue_error:" ++ toString m.id) "Discord notification failed"
         "Failed to send notification after 5 retries. Message discarded." "error",
       WEff.deleteRow m.id]

/-! ### The poll loop

JavaScript is single-threaded: an external `stop()` can only run while
the worker is suspended at an `await`.  The model therefore threads an
environment schedule `env : List Bool` consumed one entry per
suspension point (each awaited `processMessage`, each inter-batch
sleep); a `true` entry means `stop()` is invoked during that await,
which aborts the signal (recorded as a `stopCall` effect).  A batch is
a dequeue result, each message paired with its transport outcome. -/
abbrev Batch := List (WMsg × PostOutcome)

/-- Mutable state of a run: the abort flag of the worker's
`AbortController`, and the remaining environment schedule. -/
structure RunSt where
  aborted : Bool
  env : List Bool
deriving DecidableEq

/-- One suspension point: the environment may call `stop()` here. -/
def consumeAwait (rs : RunSt) : List WEff × RunSt :=
  match rs.env with
  | [] => ([], rs)
  | b :: rest =>
    if b then ([WEff.stopCall], { aborted := true, env := rest })
    else ([], { rs with env := rest })

/-- The `for (const message of messages)` body: each message is
processed only if the signal is not yet aborted (`if (signal.aborted)
break`); an in-flight `processMessage` always runs to completion. -/
def runBatch (deps : WDeps) (rs : RunSt) : Batch → List WEff × RunSt
  | [] => ([], rs)
  | (m, o) :: tl =>
    if rs.aborted then ([], rs)
    else
      let t1 := processMessage deps m o
      let p2 := consumeAwait rs
      let p3 := runBatch deps p2.2 tl
      (t1 ++ p2.1 ++ p3.1, p3.2)

/-- How the `while` loop of `poll` exited. -/
inductive ExitKind where
  | emptyStop
  | abortExit
  | fuelOut
deriving DecidableEq

/-- `QueueWorker.poll`: while the signal is not aborted, dequeue a
batch; stop and return if it is empty; otherwise process it, then
sleep `POLL_INTERVAL_MS` (the sleep is unconditional — the abort flag
is only re-checked at the top of the loop).  `script` lists the
successive dequeue results; an exhausted script means the queue is
empty.  The fuel bounds the number of loop iterations. -/
def poll (deps : WDeps) : Nat → RunSt → List Batch → List WEff × RunSt × ExitKind
  | 0, rs, _ => ([], rs, .fuelOut)
  | fuel+1, rs, script =>
    if rs.aborted then ([], rs, .abortExit)
    else
      match script with
      | [] => ([WEff.dequeue BATCH_SIZE], rs, .emptyStop)
      | batch :: rest =>
        if batch.isEmpty then ([WEff.dequeue BATCH_SIZE], rs, .emptyStop)
        else
          let p1 := runBatch deps rs batch
          let p2 := consumeAwait p1.2
          let p3 := poll deps fuel p2.2 rest
          (WEff.dequeue BATCH_SIZE :: (p1.1 ++ [WEff.sleepPoll POLL_INTERVAL_MS] ++ p2.1 ++ p3.1),
            p3.2.1, p3.2.2)

/-- The worker's `isRunning` flag after the loop returns: the
empty-queue exit calls `this.stop()` and an external abort ran
`stop()` itself, so both leave the worker not running. -/
def finalRunning : ExitKind → Bool
  | .emptyStop => false
  | .abortExit => false
  | .fuelOut => true

structure WorkerSt where
  isRunning : Bool
deriving DecidableEq

/-- `QueueWorker.start`: a no-op when already running, otherwise mark
running, create a fresh (unaborted) `AbortController` and await
`poll`. -/
def startWorker (deps : WDeps) (w : WorkerSt) (fuel : Nat) (env : List Bool)
    (script : List Batch) : List WEff × WorkerSt :=
  if w.isRunning then ([], w)
  else
    let p := poll deps fuel { aborted := false, env := env } script
    (p.1, { isRunning := finalRunning p.2.2 })

/-- Effect classifiers used by the cancellation analysis. -/
def isAlert : WEff → Bool
  | .alert _ _ _ _ => true
  | _ => false

def isSleepOrStop : WEff → Bool
  | .sleepPoll _ => true
  | .stopCall => true
  | _ => false

/-- After the first `stopCall` in a trace, only sleeps (and further
`stop()` calls) occur. -/
def postStopOnlySleeps : List WEff → Bool
  | [] => true
  | WEff.stopCall :: rest => rest.all isSleepOrStop
  | _ :: rest => postStopOnlySleeps rest

/-! ## Webhook transport (`postDiscordWebhook`, `src/index.ts`)

JavaScript numbers are modelled as exact rationals, with `none`
standing for a non-finite value (`Number.isFinite` fails on it).
A fetch response is modelled by the fields the function reads; its
parsed JSON body (`.json()`, and `JSON.parse` of `.text()`, which read
the same body) is carried as `jsonBody` (`none` = the parse throws). -/
def HTTP_STATUS_TOO_MANY_REQUESTS : Nat := 429

def MS_PER_SECOND : Nat := 1000

def DEFAULT_RATE_LIMIT_WAIT_MS : Int := 10000

/-- JavaScript values as produced by `JSON.parse`. -/
inductive JSVal where
  | null : JSVal
  | bool (b : Bool) : JSVal
  | num (q : Option ℚ) : JSVal
  | str (s : String) : JSVal
  | arr (elems : List JSVal) : JSVal
  | obj (fields : List (String × JSVal)) : JSVal

/-- Property access `v.k` on a parsed JSON value: only objects have
fields (`JSON.parse` keeps the last duplicate key); on any other value
the access yields `undefined`. -/
def jfield : JSVal → String → Option JSVal
  | .obj fs, k => fs.foldl (fun acc p => if p.1 = k then some p.2 else acc) none
  | _, _ => none

/-- JS truthiness (`!json` is the negation): `null`, `false`, `0` and
`""` are falsy; `JSON.parse` never yields `NaN`, so a non-finite
number here is `±Infinity`, which is truthy. -/
def jsTruthy : JSVal → Bool
  | .null => false
  | .bool b => b
  | .num none => true
  | .num (some q) => decide (q ≠ 0)
  | .str s => decide (s ≠ "")
  | .arr _ => true
  | .obj _ => true

/-- `typeof v === 'object'`: true for objects, arrays and `null`. -/
def jsTypeofObject : JSVal → Bool
  | .null => true
  | .arr _ => true
  | .obj _ => true
  | _ => false

/-- A fetch response as read by `postDiscordWebhook`.
`retryAfterHeader` models `Number(headers.get('Retry-After'))`: the
outer `none` is an absent or empty header (`if (!raw)`), the inner
`none` a non-finite numeric value. -/
structure Resp where
  ok : Bool
  status : Nat
  statusText : String
  bodyText : String
  jsonBody : Option JSVal
  retryAfterHeader : Option (Option ℚ)

/-- `parseRetryAfterFromText`: empty text is rejected up front; then
`JSON.parse(text)?.retry_after` must be a finite number `≥ 0`. -/
def parseRetryAfterFromText (r : Resp) : Option ℚ :=
  if r.bodyText = "" then none
  else
    match r.jsonBody with
    | none => none
    | some j =>
      match jfield j "retry_after" with
      | some (.num (some q)) => if 0 ≤ q then some q else none
      | _ => none

/-- `parseRetryAfterFromHeader`: the header value must be a finite
number `≥ 0`. -/
def parseRetryAfterFromHeader (r : Resp) : Option ℚ :=
  match r.retryAfterHeader with
  | none => none
  | some none => none
  | some (some q) => if q < 0 then none else some q

/-- `parseRetryAfterFromText(text) ?? parseRetryAfterFromHeader(headers)`. -/
def retryAfterSeconds (r : Resp) : Option ℚ :=
  match parseRetryAfterFromText r with
  | some q => some q
  | none => parseRetryAfterFromHeader r

/-- `waitMs`: the suggested seconds scaled by `Math.ceil(s * 1000)`,
falling back to the configured default. -/
def rateLimitWaitMs (waitOnRateLimitMs : Int) (r : Resp) : Int :=
  match retryAfterSeconds r with
  | none => waitOnRateLimitMs
  | some q => ⌈q * (MS_PER_SECOND : ℚ)⌉

/-- Parsing of a successful response body when `wait` was requested:
`!json` / `typeof json !== 'object'` guards, then both `channel_id`
and `id` must be string-typed. -/
def parseWaitResult (wait : Bool) (r : Resp) : Option WebhookRes :=
  if wait then
    match r.jsonBody with
    | none => none
    | some j =>
      if jsTruthy j = false then none
      else if jsTypeofObject j = false then none
      else
        match jfield j "channel_id", jfield j "id" with
        | some (.str ch), some (.str i) => some ⟨i, ch⟩
        | _, _ => none
  else none

structure PostDeps where
  showErrorAlert : Bool
  waitOnRateLimitMs : Int

/-- Observable effects of the transport. -/
inductive TEff where
  | fetchCall
  | sleepMs (ms : Int)
  | alert (key title message variant : String)
deriving DecidableEq

def isSleepEff : TEff → Bool
  | .sleepMs _ => true
  | _ => false

/-- The thrown `Error`'s message: status, status text and body text. -/
def webhookFailureMsg (r : Resp) : String :=
  "Discord webhook failed: " ++ toString r.status ++ " " ++ r.statusText ++ " " ++ r.bodyText

/-- `Math.round` (half away from zero is `⌊x + 1/2⌋` for the
nonnegative arguments that occur here). -/
def jsRound (q : ℚ) : Int := ⌊q + 1 / 2⌋

/-- The user-visible warning emitted when the post-429 retry fails. -/
def rateLimitAlertEffs (deps : PostDeps) (r2 : Resp) (waitMs : Int) : List TEff :=
  if deps.showErrorAlert then
    [TEff.alert ("discord_webhook_error:" ++ toString r2.status) "Discord webhook rate-limited"
      ("Discord webhook returned 429 (rate limited). Waited "
        ++ toString (jsRound ((waitMs : ℚ) / (MS_PER_SECOND : ℚ)))
        ++ "s and retried, but it still failed.") "warning"]
  else []

/-- The user-visible error emitted for other failing statuses. -/
def plainAlertEffs (deps : PostDeps) (r : Resp) : List TEff :=
  if deps.showErrorAlert then
    [TEff.alert ("discord_webhook_error:" ++ toString r.status) "Discord webhook error"
      ("Discord webhook failed: " ++ toString r.status ++ " " ++ r.statusText) "error"]
  else []

/-- `postDiscordWebhook`: one fetch; on success parse per `wait`; on
429 compute the wait, sleep once, fetch exactly once more, then either
succeed as usual or alert and throw; on any other status alert and
throw.  `r1` is the first fetch's response and `r2` the retry's (only
reached on the 429 path). -/
def postDiscordWebhook (wait : Bool) (deps : PostDeps) (r1 r2 : Resp) :
    List TEff × Except String (Option WebhookRes) :=
  if r1.ok then
    ([TEff.fetchCall], Except.ok (parseWaitResult wait r1))
  else if r1.status = HTTP_STATUS_TOO_MANY_REQUESTS then
    let waitMs := rateLimitWaitMs deps.waitOnRateLimitMs r1
    if r2.ok then
      ([TEff.fetchCall, TEff.sleepMs waitMs, TEff.fetchCall],
        Except.ok (parseWaitResult wait r2))
    else
      ([TEff.fetchCall, TEff.sleepMs waitMs, TEff.fetchCall]
          ++ rateLimitAlertEffs deps r2 waitMs,
        Except.error (webhookFailureMsg r2))
  else
    ([TEff.fetchCall] ++ plainAlertEffs deps r1, Except.error (webhookFailureMsg r1))

/-- The wait-duration selection as the claim words it: body first,
else header, else configured default (stated-side definition, compared
against the code's `rateLimitWaitMs`). -/
def specWaitMs (waitOnRateLimitMs : Int) (r : Resp) : Int :=
  match parseRetryAfterFromText r, parseRetryAfterFromHeader r with
  | some q, _ => ⌈q * (MS_PER_SECOND : ℚ)⌉
  | none, some q => ⌈q * (MS_PER_SECOND : ℚ)⌉
  | none, none => waitOnRateLimitMs

/-- The success-result extraction as the claim words it: the pair is
returned exactly when both `id` and `channel_id` are present in the
parsed body and string-typed (stated-side definition). -/
def specWaitResult (wait : Bool) (r : Resp) : Option WebhookRes :=
  if wait then
    match (r.jsonBody.bind fun j => jfield j "id"),
        (r.jsonBody.bind fun j => jfield j "channel_id") with
    | some (.str i), some (.str ch) => some ⟨i, ch⟩
    | _, _ => none
  else none

/-- The response whose status decides the overall outcome: the first
one, unless it was a 429 (in which case the retry's). -/
def finalResp (r1 r2 : Resp) : Resp :=
  if r1.ok then r1
  else if r1.status = HTTP_STATUS_TOO_MANY_REQUESTS then r2
  else r1

theorem natCharsAux_eq_spec : ∀ (fuel n : Nat), n < fuel → ∀ acc,
    natCharsAux fuel n acc = natCharsSpec n ++ acc := by
  intro fuel
  induction fuel with
  | zero => omega
  | succ f ih =>
    intro n hn acc
    by_cases h10 : n < 10
    · rw [natCharsAux, if_pos h10, natCharsSpec, dif_pos h10]
      rfl
    · rw [natCharsAux, if_neg h10, ih (n / 10) (by omega)]
      conv_rhs => rw [natCharsSpec]
      rw [dif_neg h10]
      simp

theorem natChars_eq_spec (n : Nat) : natChars n = natCharsSpec n := by
  rw [natChars, natCharsAux_eq_spec (n + 1) n (by omega), List.append_nil]

theorem charToDigit?_digitChar {d : Nat} (h : d < 10) :
    charToDigit? (digitChar d) = some d := by
  interval_cases d <;> decide

theorem isDigitChar_digitChar {d : Nat} (h : d < 10) :
    isDigitChar (digitChar d) = true := by
  simp [isDigitChar, charToDigit?_digitChar h]

theorem natCharsSpec_ne_nil (n : Nat) : natCharsSpec n ≠ [] := by
  unfold natCharsSpec
  split
  · simp
  · simp

theorem natCharsSpec_all_digits (n : Nat) :
    ∀ c ∈ natCharsSpec n, isDigitChar c = true := by
  induction n using Nat.strong_induction_on with
  | _ n ih =>
    unfold natCharsSpec
    split
    · intro c hc
      simp only [List.mem_singleton] at hc
      subst hc
      exact isDigitChar_digitChar (by omega)
    · intro c hc
      rcases List.mem_append.1 hc with h1 | h2
      · exact ih (n / 10) (Nat.div_lt_self (by omega) (by omega)) c h1
      · simp only [List.mem_singleton] at h2
        subst h2
        exact isDigitChar_digitChar (Nat.mod_lt _ (by omega))

theorem noDigitHead_nil : NoDigitHead [] := by
  intro c hc
  simp at hc

theorem noDigitHead_cons {c : Char} {cs : List Char}
    (h : isDigitChar c = false) : NoDigitHead (c :: cs) := by
  intro d hd
  simp only [List.head?_cons, Option.some.injEq] at hd
  subst hd
  exact h

theorem spanDigits_append_of_digits {ds : List Char} (hds : ∀ c ∈ ds, isDigitChar c = true)
    {rest : List Char} (hrest : NoDigitHead rest) :
    spanDigits (ds ++ rest) = (ds, rest) := by
  induction ds with
  | nil =>
    cases rest with
    | nil => rfl
    | cons c cs =>
      have := hrest c rfl
      simp [spanDigits, this]
  | cons c cs ih =>
    have hc := hds c (List.mem_cons_self _ _)
    have ih' := ih (fun d hd => hds d (List.mem_cons_of_mem _ hd))
    simp [spanDigits, hc, ih']

theorem digitsVal_append (l1 l2 : List Char) :
    digitsVal (l1 ++ l2) = l2.foldl (fun a c => 10 * a + (charToDigit? c).getD 0) (digitsVal l1) := by
  simp [digitsVal, List.foldl_append]

theorem digitsVal_natCharsSpec (n : Nat) : digitsVal (natCharsSpec n) = n := by
  induction n using Nat.strong_induction_on with
  | _ n ih =>
    unfold natCharsSpec
    split
    · next h =>
      simp [digitsVal, charToDigit?_digitChar h]
    · next h =>
      rw [digitsVal_append, ih (n / 10) (Nat.div_lt_self (by omega) (by omega))]
      simp [charToDigit?_digitChar (Nat.mod_lt n (show 0 < 10 by omega))]
      omega

theorem parseNat?_natChars (n : Nat) {rest : List Char} (hrest : NoDigitHead rest) :
    parseNat? (natChars n ++ rest) = some (n, rest) := by
  unfold parseNat?
  rw [natChars_eq_spec, spanDigits_append_of_digits (natCharsSpec_all_digits n) hrest]
  simp [natCharsSpec_ne_nil n, digitsVal_natCharsSpec n]

theorem parseStrBody_escChars (l : List Char) (rest : List Char) :
    parseStrBody (escChars l ++ ('"' :: rest)) = some (l, rest) := by
  unfold parseStrBody
  induction l with
  | nil => simp [escChars, parseStrBodyAux]
  | cons c cs ih =>
    by_cases hc : c = '"' ∨ c = '\\'
    · have h2 : ('\\' : Char) ≠ '"' := by decide
      simp only [escChars, escChar, if_pos hc, List.cons_append, List.append_assoc,
        List.singleton_append, List.nil_append]
      rw [parseStrBodyAux, if_neg h2, if_pos rfl, parseStrBodyAux, ih]
      rfl
    · push_neg at hc
      simp only [escChars, escChar, if_neg (by tauto), List.append_assoc,
        List.singleton_append, List.nil_append]
      rw [parseStrBodyAux.eq_def]
      simp [hc.1, hc.2, ih]

theorem jsize_pos (v : JsonV) : 1 ≤ jsize v := by
  cases v <;> simp [jsize]

theorem asize_pos (xs : JArr) : 1 ≤ asize xs := by
  cases xs <;> simp [asize]

theorem osize_pos (fs : JObj) : 1 ≤ osize fs := by
  cases fs <;> simp [osize]

theorem natChars_head_digit {n : Nat} {c : Char}
    (h : (natChars n).head? = some c) : isDigitChar c = true := by
  rw [natChars_eq_spec] at h
  rcases hl : natCharsSpec n with _ | ⟨x, xs⟩
  · exact absurd hl (natCharsSpec_ne_nil n)
  · rw [hl] at h
    simp only [List.head?_cons, Option.some.injEq] at h
    exact h ▸ natCharsSpec_all_digits n x (hl ▸ List.mem_cons_self _ _)

theorem jsonChars_ne_nil (v : JsonV) : jsonChars v ≠ [] := by
  cases v with
  | null => simp [jsonChars, nullLit]
  | bool b => cases b <;> simp [jsonChars, trueLit, falseLit]
  | num n =>
    simp only [jsonChars, intChars]
    split
    · simp
    · rw [natChars_eq_spec]
      exact natCharsSpec_ne_nil _
  | str s => simp [jsonChars, strChars]
  | arr xs => simp [jsonChars]
  | obj fs => simp [jsonChars]

theorem jsonChars_head_ne_rbracket (v : JsonV) {c : Char}
    (h : (jsonChars v).head? = some c) : c ≠ ']' := by
  cases v with
  | null =>
    simp only [jsonChars, nullLit, List.head?_cons, Option.some.injEq] at h
    subst h; decide
  | bool b =>
    cases b <;>
      (simp only [jsonChars, trueLit, falseLit, List.head?_cons, Option.some.injEq] at h <;>
        subst h) <;> decide
  | num n =>
    simp only [jsonChars, intChars] at h
    split at h
    · simp only [List.head?_cons, Option.some.injEq] at h
      subst h; decide
    · have := natChars_head_digit h
      intro hc
      subst hc
      simp [isDigitChar, charToDigit?] at this
  | str s => simp only [jsonChars, strChars, List.head?_cons, Option.some.injEq] at h; subst h; decide
  | arr xs => simp only [jsonChars, List.head?_cons, Option.some.injEq] at h; subst h; decide
  | obj fs => simp only [jsonChars, List.head?_cons, Option.some.injEq] at h; subst h; decide

theorem parse_roundtrip_mutual : ∀ fuel : Nat,
    (∀ v rest, jsize v ≤ fuel → NoDigitHead rest →
      parseVal fuel (jsonChars v ++ rest) = some (v, rest)) ∧
    (∀ xs rest, xs ≠ JArr.nil → asize xs ≤ fuel →
      parseArr fuel (arrBodyChars xs ++ (']' :: rest)) = some (xs, rest)) ∧
    (∀ fs rest, fs ≠ JObj.nil → osize fs ≤ fuel →
      parseObj fuel (objBodyChars fs ++ ('\x7d' :: rest)) = some (fs, rest)) := by
  intro fuel
  induction fuel with
  | zero =>
    refine ⟨fun v _ h _ => ?_, fun xs _ _ h => ?_, fun fs _ _ h => ?_⟩
    · exact absurd h (by have := jsize_pos v; omega)
    · exact absurd h (by have := asize_pos xs; omega)
    · exact absurd h (by have := osize_pos fs; omega)
  | succ f ih =>
    obtain ⟨ihv, iha, iho⟩ := ih
    refine ⟨?_, ?_, ?_⟩
    · -- parseVal
      intro v rest hsz hrest
      cases v with
      | null => simp [jsonChars, nullLit, parseVal, isDigitChar, charToDigit?]
      | bool b =>
        cases b <;> simp [jsonChars, trueLit, falseLit, parseVal, isDigitChar, charToDigit?]
      | num n =>
        by_cases hn : n < 0
        · simp only [jsonChars, intChars, if_pos hn, List.cons_append]
          have hdig : isDigitChar '-' = false := by decide
          simp [parseVal, hdig, isDigitChar, charToDigit?, parseNat?_natChars n.natAbs hrest,
            abs_of_neg hn]
        · have hcast : ((n.toNat : Int)) = n := by omega
          simp only [jsonChars, intChars, if_neg hn]
          rcases hl : natChars n.toNat with _ | ⟨c, ds⟩
          · exact absurd (natChars_eq_spec n.toNat ▸ hl) (natCharsSpec_ne_nil n.toNat)
          · have hc : isDigitChar c = true := natChars_head_digit (by rw [hl]; rfl)
            have hpn := parseNat?_natChars n.toNat hrest
            rw [hl] at hpn
            have hpn' : parseNat? (c :: (ds ++ rest)) = some (n.toNat, rest) := by
              simpa using hpn
            simp [parseVal, hc, hpn', hcast]
      | str s =>
        simp only [jsonChars, strChars, List.cons_append, List.append_assoc,
          List.singleton_append]
        simp [parseVal, isDigitChar, charToDigit?, parseStrBody_escChars]
      | arr xs =>
        cases xs with
        | nil => simp [jsonChars, arrBodyChars, parseVal, isDigitChar, charToDigit?]
        | cons v tl =>
          have hszb : asize (JArr.cons v tl) ≤ f := by simp only [jsize] at hsz; omega
          have harr := iha (JArr.cons v tl) rest (by simp) hszb
          have hne := jsonChars_ne_nil v
          rcases hv : jsonChars v with _ | ⟨c, cs⟩
          · exact absurd hv hne
          · have hcne : c ≠ ']' := jsonChars_head_ne_rbracket v (by rw [hv]; rfl)
            have hbody : arrBodyChars (JArr.cons v tl) ++ (']' :: rest)
                = c :: (cs ++ (arrTailChars tl ++ (']' :: rest))) := by
              rw [arrBodyChars, hv]
              simp
            have hgoal : jsonChars (JsonV.arr (JArr.cons v tl)) ++ rest
                = '[' :: (c :: (cs ++ (arrTailChars tl ++ (']' :: rest)))) := by
              rw [jsonChars, ← hbody]
              simp [arrBodyChars]
            rw [hgoal]
            rw [hbody] at harr
            simp [parseVal, isDigitChar, charToDigit?, hcne, harr]
      | obj fs =>
        cases fs with
        | nil => simp [jsonChars, objBodyChars, parseVal, isDigitChar, charToDigit?]
        | cons k v tl =>
          have hszb : osize (JObj.cons k v tl) ≤ f := by simp only [jsize] at hsz; omega
          have hobj := iho (JObj.cons k v tl) rest (by simp) hszb
          have hbody : objBodyChars (JObj.cons k v tl) ++ ('\x7d' :: rest)
              = '"' :: (escChars k.data ++
                  ('"' :: (':' :: (jsonChars v ++ (objTailChars tl ++ ('\x7d' :: rest)))))) := by
            rw [objBodyChars, strChars]
            simp
          have hgoal : jsonChars (JsonV.obj (JObj.cons k v tl)) ++ rest
              = '\x7b' :: ('"' :: (escChars k.data ++
                  ('"' :: (':' :: (jsonChars v ++ (objTailChars tl ++ ('\x7d' :: rest))))))) := by
            rw [jsonChars, ← hbody]
            simp [objBodyChars]
          rw [hgoal]
          rw [hbody] at hobj
          simp [parseVal, isDigitChar, charToDigit?, hobj]
    · -- parseArr
      intro xs rest hne hsz
      cases xs with
      | nil => exact absurd rfl hne
      | cons v tl =>
        have hjv : jsize v ≤ f := by simp only [asize] at hsz; omega
        have hnd : NoDigitHead (arrTailChars tl ++ (']' :: rest)) := by
          cases tl with
          | nil => simpa [arrTailChars] using
              @noDigitHead_cons ']' rest (by decide)
          | cons v2 tl2 =>
            simpa [arrTailChars] using
              @noDigitHead_cons ','
                ((jsonChars v2 ++ arrTailChars tl2) ++ (']' :: rest)) (by decide)
        have hv2 := ihv v (arrTailChars tl ++ (']' :: rest)) hjv hnd
        have hin : arrBodyChars (JArr.cons v tl) ++ (']' :: rest)
            = jsonChars v ++ (arrTailChars tl ++ (']' :: rest)) := by
          rw [arrBodyChars]
          simp
        have hA : ∀ cs, parseArr (f + 1) cs
            = match parseVal f cs with
              | none => none
              | some (v, rest) =>
                if rest.head? = some ',' then
                  match parseArr f rest.tail with
                  | none => none
                  | some (tl, r2) => some (JArr.cons v tl, r2)
                else if rest.head? = some ']' then some (JArr.cons v JArr.nil, rest.tail)
                else none := fun _ => rfl
        rw [hin, hA, hv2]
        cases tl with
        | nil => simp [arrTailChars]
        | cons v2 tl2 =>
          have htl := iha (JArr.cons v2 tl2) rest (by simp)
            (by simp only [asize] at hsz ⊢; omega)
          rw [arrBodyChars] at htl
          simp only [List.append_assoc] at htl
          simp only [arrTailChars, List.cons_append, List.append_assoc]
          simp
          rw [htl]
    · -- parseObj
      intro fs rest hne hsz
      cases fs with
      | nil => exact absurd rfl hne
      | cons k v tl =>
        have hjv : jsize v ≤ f := by simp only [osize] at hsz; omega
        have hnd : NoDigitHead (objTailChars tl ++ ('\x7d' :: rest)) := by
          cases tl with
          | nil => simpa [objTailChars] using
              @noDigitHead_cons '\x7d' rest (by decide)
          | cons k2 v2 tl2 =>
            simpa [objTailChars] using
              @noDigitHead_cons ','
                ((strChars k2 ++ (':' :: jsonChars v2) ++ objTailChars tl2)
                  ++ ('\x7d' :: rest)) (by decide)
        have hv2 := ihv v (objTailChars tl ++ ('\x7d' :: rest)) hjv hnd
        rw [parseObj.eq_def]
        have hin : objBodyChars (JObj.cons k v tl) ++ ('\x7d' :: rest)
            = '"' :: (escChars k.data ++
                ('"' :: (':' :: (jsonChars v ++ (objTailChars tl ++ ('\x7d' :: rest)))))) := by
          rw [objBodyChars, strChars]
          simp
        rw [hin]
        simp only [List.head?_cons, List.tail_cons, reduceIte]
        rw [parseStrBody_escChars]
        simp only [List.head?_cons, List.tail_cons, reduceIte]
        rw [hv2]
        cases tl with
        | nil => simp [objTailChars]
        | cons k2 v2 tl2 =>
          have htl := iho (JObj.cons k2 v2 tl2) rest (by simp)
            (by simp only [osize] at hsz ⊢; omega)
          rw [objBodyChars] at htl
          simp only [List.append_assoc, List.cons_append] at htl
          simp only [objTailChars, List.cons_append, List.append_assoc]
          simp
          rw [htl]

mutual

theorem jsize_le_len : ∀ v : JsonV, jsize v ≤ (jsonChars v).length
  | JsonV.null => by simp [jsize, jsonChars, nullLit]
  | JsonV.bool b => by cases b <;> simp [jsize, jsonChars, trueLit, falseLit]
  | JsonV.num n => by
    have := natCharsSpec_ne_nil n.toNat
    have := natCharsSpec_ne_nil n.natAbs
    simp only [jsize, jsonChars, intChars]
    split <;> rw [natChars_eq_spec] <;>
      cases hl : natCharsSpec (Int.natAbs n) <;> cases hl2 : natCharsSpec (Int.toNat n) <;>
      simp_all [List.length_cons]
  | JsonV.str s => by simp [jsize, jsonChars, strChars]
  | JsonV.arr xs => by
    have h := asize_le_body xs
    simp only [jsize, jsonChars]
    simp only [List.length_cons, List.length_append, List.length_singleton]
    omega
  | JsonV.obj fs => by
    have h := osize_le_body fs
    simp only [jsize, jsonChars]
    simp only [List.length_cons, List.length_append, List.length_singleton]
    omega

theorem asize_le_body : ∀ xs : JArr, asize xs ≤ (arrBodyChars xs).length + 1
  | JArr.nil => by simp [asize, arrBodyChars]
  | JArr.cons v tl => by
    have h1 := jsize_le_len v
    have h2 := asize_le_tail tl
    have h3 : 1 ≤ (jsonChars v).length := le_trans (jsize_pos v) h1
    simp only [asize, arrBodyChars, List.length_append]
    omega

theorem asize_le_tail : ∀ xs : JArr, asize xs ≤ (arrTailChars xs).length + 1
  | JArr.nil => by simp [asize, arrTailChars]
  | JArr.cons v tl => by
    have h1 := jsize_le_len v
    have h2 := asize_le_tail tl
    simp only [asize, arrTailChars, List.length_cons, List.length_append]
    omega

theorem osize_le_body : ∀ fs : JObj, osize fs ≤ (objBodyChars fs).length + 1
  | JObj.nil => by simp [osize, objBodyChars]
  | JObj.cons k v tl => by
    have h1 := jsize_le_len v
    have h2 := osize_le_tail tl
    simp only [osize, objBodyChars, List.length_append, List.length_cons]
    omega

theorem osize_le_tail : ∀ fs : JObj, osize fs ≤ (objTailChars fs).length + 1
  | JObj.nil => by simp [osize, objTailChars]
  | JObj.cons k v tl => by
    have h1 := jsize_le_len v
    have h2 := osize_le_tail tl
    simp only [osize, objTailChars, List.length_cons, List.length_append]
    omega

end

/-- Round trip: parsing the serialized form of a JSON value yields the
value back (`JSON.parse(JSON.stringify(v)) = v`). -/
theorem jsonParse_stringify (v : JsonV) : jsonParse (jsonStringify v) = some v := by
  have h := (parse_roundtrip_mutual ((jsonChars v).length + 1)).1 v []
    (by have := jsize_le_len v; omega) noDigitHead_nil
  rw [List.append_nil] at h
  simp [jsonParse, jsonStringify, h]

theorem DBWF_empty : DBWF DB.empty := by
  constructor
  · exact List.Pairwise.nil
  · intro r hr
    simp [DB.empty] at hr

theorem DBWF_enqueue {db : DB} (h : DBWF db) (m : EnqueueInput) {now : Nat}
    (hclock : ∀ r ∈ db.rows, r.created_at ≤ now) :
    DBWF (enqueue m now db) := by
  obtain ⟨hord, hid⟩ := h
  constructor
  · unfold DBOrdered enqueue
    rw [List.pairwise_append]
    refine ⟨hord, List.pairwise_singleton _ _, ?_⟩
    intro a ha b hb
    simp only [List.mem_singleton] at hb
    subst hb
    exact ⟨hclock a ha, hid a ha⟩
  · intro r hr
    simp only [enqueue, List.mem_append, List.mem_singleton] at hr
    simp only [enqueue]
    rcases hr with hr | hr
    · have := hid r hr
      omega
    · subst hr
      simp [enqueueRow]

theorem DBOrdered_sorted {db : DB} (h : DBOrdered db) :
    List.Sorted rowKeyLE db.rows := by
  unfold DBOrdered at h
  exact h.imp (fun hab => by unfold rowKeyLE; omega)

theorem insertionSort_eq_self {db : DB} (h : DBOrdered db) :
    List.insertionSort rowKeyLE db.rows = db.rows :=
  (DBOrdered_sorted h).insertionSort_eq

/-- **C3**: `updateThreadId(sessionId, T)` sets `thread_id` to `T` on
exactly the rows of that session whose `thread_id` is NULL; every
other row keeps all of its fields, and the row count and id counter
are untouched. -/
theorem updateThreadId_spec (db : DB) (s T : String) :
    (updateThreadId s T db).nextId = db.nextId ∧
    (updateThreadId s T db).rows.length = db.rows.length ∧
    ∀ (i : Nat) (r : Row), db.rows[i]? = some r →
      ((r.session_id = s ∧ r.thread_id = none →
        (updateThreadId s T db).rows[i]? = some { r with thread_id := some T }) ∧
       (¬(r.session_id = s ∧ r.thread_id = none) →
        (updateThreadId s T db).rows[i]? = some r)) := by
  refine ⟨rfl, by simp [updateThreadId], ?_⟩
  intro i r hr
  constructor
  · intro hc
    simp only [updateThreadId, List.getElem?_map, hr]
    simp [hc]
  · intro hc
    simp only [updateThreadId, List.getElem?_map, hr]
    simp [hc]

/-- **C4**: `dequeue(limit)` is a pure SELECT ordered by
`(created_at, id)` ascending with LIMIT `limit`: the state is
unchanged, at most `limit` messages are returned, the selected rows
are sorted by the key, on an insertion-order-consistent state they are
exactly the first `limit` rows in insertion order (ties on equal
timestamps broken by the insertion id), and an empty queue yields an
empty list. -/
theorem dequeue_spec (db : DB) (n : Nat) (hord : DBOrdered db) :
    (dequeue db n).2 = db ∧
    (dequeue db n).1.length ≤ n ∧
    List.Sorted rowKeyLE (dequeueRows db n) ∧
    (dequeue db n).1 = (db.rows.take n).map rowToMessage ∧
    (db.rows = [] → (dequeue db n).1 = []) := by
  refine ⟨rfl, ?_, ?_, ?_, ?_⟩
  · simp only [dequeue, dequeueRows, List.length_map, List.length_take]
    omega
  · exact List.Pairwise.sublist (List.take_sublist n _) (List.sorted_insertionSort rowKeyLE db.rows)
  · simp only [dequeue, dequeueRows, insertionSort_eq_self hord]
  · intro h
    simp [dequeue, dequeueRows, h]

/-- **C9**: a message enqueued with a JSON-representable payload comes
back from `dequeue` (as the newest row) with the structurally equal
payload (serialized on insert, parsed on read), the same session and
thread ids, `retryCount = 0`, `lastError = NULL` and `createdAt` equal
to the insertion time. -/
theorem enqueue_dequeue_roundtrip (db : DB) (m : EnqueueInput) (now : Nat)
    (hwf : DBWF db) (hclock : ∀ r ∈ db.rows, r.created_at ≤ now) :
    (dequeue (enqueue m now db) (db.rows.length + 1)).1.getLast? =
      some ⟨db.nextId, m.sessionId, m.threadId, some m.webhookBody, now, 0, none⟩ := by
  have hwf' := DBWF_enqueue hwf m hclock
  have hsort := insertionSort_eq_self hwf'.1
  simp only [dequeue, dequeueRows, hsort]
  rw [List.take_of_length_le (by simp [enqueue])]
  simp only [enqueue, List.map_append]
  rw [List.map_singleton, List.getLast?_concat]
  simp [rowToMessage, enqueueRow, jsonParse_stringify]

theorem postStop_cons_ne {c : WEff} (h : c ≠ WEff.stopCall) (l : List WEff) :
    postStopOnlySleeps (c :: l) = postStopOnlySleeps l := by
  cases c <;> simp_all [postStopOnlySleeps]

theorem postStop_append_of_stopFree {l1 : List WEff}
    (h : ∀ e ∈ l1, e ≠ WEff.stopCall) (l2 : List WEff) :
    postStopOnlySleeps (l1 ++ l2) = postStopOnlySleeps l2 := by
  induction l1 with
  | nil => rfl
  | cons c cs ih =>
    rw [List.cons_append, postStop_cons_ne (h c (List.mem_cons_self _ _))]
    exact ih fun e he => h e (List.mem_cons_of_mem _ he)

theorem postStop_of_all {l : List WEff} (h : l.all isSleepOrStop = true) :
    postStopOnlySleeps l = true := by
  induction l with
  | nil => rfl
  | cons c cs ih =>
    simp only [List.all_cons, Bool.and_eq_true] at h
    cases c <;> simp_all [postStopOnlySleeps, isSleepOrStop]

theorem processMessage_tame (deps : WDeps) (m : WMsg) (o : PostOutcome) :
    ∀ e ∈ processMessage deps m o, e ≠ WEff.stopCall ∧ isSleepOrStop e = false := by
  intro e he
  cases o with
  | ok res =>
    rcases hm : m.threadId with _ | tid
    · simp only [processMessage, hm] at he
      rcases res with _ | r
      · simp at he
        rcases he with he | he <;> subst he <;> simp [isSleepOrStop]
      · by_cases hch : r.channel_id = ""
        · simp [hch] at he
          rcases he with he | he <;> subst he <;> simp [isSleepOrStop]
        · by_cases hcb : deps.hasOnThreadCreated = true
          · simp [hch, hcb] at he
            rcases he with he | he | he | he <;> subst he <;> simp [isSleepOrStop]
          · simp [hch, hcb] at he
            rcases he with he | he | he <;> subst he <;> simp [isSleepOrStop]
    · simp only [processMessage, hm] at he
      simp at he
      rcases he with he | he <;> subst he <;> simp [isSleepOrStop]
  | fail msg =>
    by_cases hr : m.retryCount.getD 0 < MAX_RETRIES
    · simp only [processMessage, if_pos hr] at he
      simp at he
      rcases he with he | he <;> subst he <;> simp [isSleepOrStop]
    · simp only [processMessage, if_neg hr] at he
      simp at he
      rcases he with he | he <;> subst he <;> simp [isSleepOrStop]

theorem consumeAwait_cases (rs : RunSt) :
    ((consumeAwait rs).1 = [] ∧ (consumeAwait rs).2.aborted = rs.aborted) ∨
    ((consumeAwait rs).1 = [WEff.stopCall] ∧ (consumeAwait rs).2.aborted = true) := by
  unfold consumeAwait
  rcases rs.env with _ | ⟨b, rest⟩
  · left; exact ⟨rfl, rfl⟩
  · cases b
    · left; simp
    · right; simp

theorem runBatch_aborted (deps : WDeps) (b : Batch) (rs : RunSt)
    (h : rs.aborted = true) : runBatch deps rs b = ([], rs) := by
  cases b with
  | nil => rfl
  | cons p tl => simp [runBatch, h]

theorem runBatch_spec (deps : WDeps) : ∀ (b : Batch) (rs : RunSt),
    ((runBatch deps rs b).2.aborted = rs.aborted ∧
      ∀ e ∈ (runBatch deps rs b).1, e ≠ WEff.stopCall ∧ isSleepOrStop e = false) ∨
    ((runBatch deps rs b).2.aborted = true ∧
      ∃ l1, (∀ e ∈ l1, e ≠ WEff.stopCall ∧ isSleepOrStop e = false) ∧
        (runBatch deps rs b).1 = l1 ++ [WEff.stopCall]) := by
  intro b
  induction b with
  | nil =>
    intro rs
    left
    exact ⟨rfl, by simp [runBatch]⟩
  | cons p tl ih =>
    intro rs
    by_cases hab : rs.aborted = true
    · left
      rw [runBatch_aborted deps _ _ hab]
      exact ⟨rfl, by simp⟩
    · simp only [runBatch, hab, if_neg, Bool.false_eq_true, if_false, reduceIte]
      rcases consumeAwait_cases rs with ⟨h1, h2⟩ | ⟨h1, h2⟩
      · -- no stop at this await
        rcases ih (consumeAwait rs).2 with ⟨h3, h4⟩ | ⟨h3, h4⟩
        · left
          refine ⟨by simp_all, ?_⟩
          intro e he
          simp only [List.mem_append, h1, List.mem_nil_iff, or_false] at he
          rcases he with he | he
          · exact processMessage_tame deps p.1 p.2 e he
          · exact h4 e he
        · right
          refine ⟨h3, ?_⟩
          obtain ⟨l1, hl1, heq⟩ := h4
          refine ⟨processMessage deps p.1 p.2 ++ l1, ?_, by simp [h1, heq]⟩
          intro e he
          rcases List.mem_append.1 he with he | he
          · exact processMessage_tame deps p.1 p.2 e he
          · exact hl1 e he
      · -- stop() arrived during this message's await
        rw [runBatch_aborted deps tl _ h2]
        right
        refine ⟨h2, processMessage deps p.1 p.2, processMessage_tame deps p.1 p.2, ?_⟩
        simp [h1]

theorem poll_aborted (deps : WDeps) (fuel : Nat) (rs : RunSt) (script : List Batch)
    (h : rs.aborted = true) : (poll deps fuel rs script).1 = [] := by
  cases fuel with
  | zero => rfl
  | succ f => simp [poll, h]

theorem postStop_stop_head (l : List WEff) :
    postStopOnlySleeps (WEff.stopCall :: l) = l.all isSleepOrStop := rfl

theorem poll_postStop (deps : WDeps) : ∀ (fuel : Nat) (rs : RunSt) (script : List Batch),
    postStopOnlySleeps (poll deps fuel rs script).1 = true := by
  intro fuel
  induction fuel with
  | zero => intro rs script; rfl
  | succ f ih =>
    intro rs script
    by_cases hab : rs.aborted = true
    · simp [poll, hab, postStopOnlySleeps]
    · rcases script with _ | ⟨batch, rest⟩
      · simp [poll, hab, postStopOnlySleeps]
      · by_cases hbe : batch.isEmpty
        · simp [poll, hab, hbe, postStopOnlySleeps]
        · simp only [poll, hab, hbe, Bool.false_eq_true, if_false, reduceIte]
          rcases runBatch_spec deps batch rs with ⟨ha, htame⟩ | ⟨ha, l1, hl1, heq⟩
          · rcases consumeAwait_cases (runBatch deps rs batch).2 with ⟨h1, h2⟩ | ⟨h1, h2⟩
            · -- no stop at all in this iteration
              rw [h1, List.append_nil]
              rw [postStop_cons_ne (by simp), List.append_assoc,
                postStop_append_of_stopFree (fun e he => (htame e he).1),
                List.singleton_append, postStop_cons_ne (by simp)]
              exact ih _ _
            · -- stop() arrives during the inter-batch sleep
              have h3 := poll_aborted deps f (consumeAwait (runBatch deps rs batch).2).2 rest h2
              rw [h1, h3, List.append_nil]
              rw [postStop_cons_ne (by simp), List.append_assoc,
                postStop_append_of_stopFree (fun e he => (htame e he).1),
                List.singleton_append, postStop_cons_ne (by simp)]
              simp [postStopOnlySleeps, isSleepOrStop]
          · -- stop() arrived during a message of the batch
            have hab' : (consumeAwait (runBatch deps rs batch).2).2.aborted = true := by
              rcases consumeAwait_cases (runBatch deps rs batch).2 with ⟨_, h2⟩ | ⟨_, h2⟩
              · rw [h2, ha]
              · exact h2
            have h3 := poll_aborted deps f (consumeAwait (runBatch deps rs batch).2).2 rest hab'
            rw [h3, List.append_nil, heq]
            rw [postStop_cons_ne (by simp), List.append_assoc, List.append_assoc,
              postStop_append_of_stopFree (fun e he => (hl1 e he).1),
              List.singleton_append, postStop_stop_head]
            rcases consumeAwait_cases (runBatch deps rs batch).2 with ⟨h1, _⟩ | ⟨h1, _⟩ <;>
              simp [h1, isSleepOrStop]

theorem poll_no_fuelOut (deps : WDeps) : ∀ (script : List Batch) (fuel : Nat) (rs : RunSt),
    script.length < fuel → (poll deps fuel rs script).2.2 ≠ ExitKind.fuelOut := by
  intro script
  induction script with
  | nil =>
    intro fuel rs h
    cases fuel with
    | zero => omega
    | succ f =>
      by_cases hab : rs.aborted = true <;> simp [poll, hab]
  | cons b tl ih =>
    intro fuel rs h
    cases fuel with
    | zero => omega
    | succ f =>
      by_cases hab : rs.aborted = true
      · simp [poll, hab]
      · by_cases hbe : b.isEmpty
        · simp [poll, hab, hbe]
        · simp only [poll, hab, hbe, Bool.false_eq_true, if_false, reduceIte]
          exact ih f _ (by simp at h; omega)

/-- **C7**: observing an empty dequeue makes the worker stop itself:
with an empty queue, `start()` performs exactly one dequeue and
returns with the worker not running (no `stop()` call needed); a
subsequent `start()` is again effective and behaves identically; and
any terminating run (enough fuel for its script) ends not running —
the only states are idle and running. -/
theorem worker_auto_stop (deps : WDeps) (fuel : Nat) (env : List Bool)
    (script : List Batch) (hfuel : 1 ≤ fuel)
    (hempty : script = [] ∨ script.head? = some []) :
    startWorker deps ⟨false⟩ fuel env script = ([WEff.dequeue BATCH_SIZE], ⟨false⟩) ∧
    startWorker deps (startWorker deps ⟨false⟩ fuel env script).2 fuel env script
      = ([WEff.dequeue BATCH_SIZE], ⟨false⟩) ∧
    ∀ (script2 : List Batch) (env2 : List Bool),
      (startWorker deps ⟨false⟩ (script2.length + 1) env2 script2).2.isRunning = false := by
  cases fuel with
  | zero => omega
  | succ f =>
    have h1 : startWorker deps ⟨false⟩ (f + 1) env script
        = ([WEff.dequeue BATCH_SIZE], ⟨false⟩) := by
      rcases hempty with h | h
      · subst h
        simp [startWorker, poll, finalRunning]
      · rcases script with _ | ⟨b, rest⟩
        · simp [startWorker, poll, finalRunning]
        · simp only [List.head?_cons, Option.some.injEq] at h
          subst h
          simp [startWorker, poll, finalRunning]
    refine ⟨h1, by rw [h1]; exact h1, ?_⟩
    intro script2 env2
    simp only [startWorker, Bool.false_eq_true, if_false, reduceIte]
    have hnf := poll_no_fuelOut deps script2 (script2.length + 1) ⟨false, env2⟩ (by omega)
    rcases hx : (poll deps (script2.length + 1) ⟨false, env2⟩ script2).2.2 with _ | _ | _
    · rfl
    · rfl
    · exact absurd hx hnf

/-- **C8 (amended)**: cancellation is cooperative and observed only at
the loop's check points: if the flag is already set at the top of the
loop, no effect at all is performed (no dequeue, no message); and in
any run, every effect after a `stop()` call is a sleep or a further
`stop()` call — no message processing and no dequeue follows the
cancellation, an in-flight delivery always completing its own effects
first.  (Contrary to the original claim, the loop still enters the
fixed inter-batch sleep when cancellation arrives during a batch.) -/
theorem poll_cancellation (deps : WDeps) (fuel : Nat) (rs : RunSt) (script : List Batch) :
    (rs.aborted = true → (poll deps fuel rs script).1 = []) ∧
    postStopOnlySleeps (poll deps fuel rs script).1 = true :=
  ⟨poll_aborted deps fuel rs script, poll_postStop deps fuel rs script⟩

/-- **C8 counterexample**: `stop()` is requested while the only
message of a batch is being delivered; the loop nevertheless performs
its inter-batch sleep afterwards — the `sleepPoll` effect occurs after
the `stopCall` — refuting the claim's "the loop does not enter its
inter-batch sleep after cancellation has been requested". -/
theorem sleep_after_stop_counterexample :
    (poll ⟨true, fun s => "thread-" ++ s⟩ 3 ⟨false, [true]⟩
        [[(⟨1, "s1", some "t1", none⟩, PostOutcome.ok none)]]).1 =
      [WEff.dequeue 1, WEff.post (some "t1") false none, WEff.deleteRow 1,
       WEff.stopCall, WEff.sleepPoll 1000] := by decide

/-- **C1 (amended)**: for a dequeued message with `threadId = null`
whose post-and-wait call succeeds: if the result carries a usable
thread identifier (a nonempty `channel_id` — the code tests
truthiness), the worker calls `updateThreadId(sessionId, channel_id)`,
invokes the `onThreadCreated` callback with the same pair, and then
deletes the row, issuing no separate post; if the result carries no
usable thread identifier, the worker still deletes the row without
retrying.  In both cases no alert of any severity is emitted (the
original claim's "low-severity warning" does not exist in the code). -/
theorem thread_creation_spec (deps : WDeps) (m : WMsg) (res : Option WebhookRes)
    (hthread : m.threadId = none) (hcb : deps.hasOnThreadCreated = true) :
    (∀ r : WebhookRes, res = some r → r.channel_id ≠ "" →
      processMessage deps m (.ok res) =
        [WEff.post none true (some (deps.buildThreadName m.sessionId)),
         WEff.updateThreadId m.sessionId r.channel_id,
         WEff.threadCreated m.sessionId r.channel_id,
         WEff.deleteRow m.id]) ∧
    ((res = none ∨ ∃ r : WebhookRes, res = some r ∧ r.channel_id = "") →
      processMessage deps m (.ok res) =
        [WEff.post none true (some (deps.buildThreadName m.sessionId)),
         WEff.deleteRow m.id]) ∧
    (processMessage deps m (.ok res)).countP (fun e => isAlert e) = 0 := by
  refine ⟨?_, ?_, ?_⟩
  · intro r hr hch
    subst hr
    simp [processMessage, hthread, hch, hcb]
  · intro hcase
    rcases hcase with h | ⟨r, hr, hch⟩
    · subst h
      simp [processMessage, hthread]
    · subst hr
      simp [processMessage, hthread, hch]
  · rcases res with _ | r
    · simp [processMessage, hthread, isAlert]
    · by_cases hch : r.channel_id = ""
      · simp [processMessage, hthread, hch, isAlert]
      · by_cases hcb2 : deps.hasOnThreadCreated = true <;>
          simp [processMessage, hthread, hch, hcb2, isAlert]

/-- **C1 counterexample**: a thread-creation post succeeds but the
response carries no parsable thread identifier; the worker deletes
the row (second effect) yet emits no alert at all, contradicting the
claim's "a low-severity warning is logged". -/
theorem thread_creation_no_warning_counterexample :
    processMessage ⟨true, fun s => "thread-" ++ s⟩ ⟨1, "s1", none, none⟩ (.ok none) =
      [WEff.post none true (some "thread-s1"), WEff.deleteRow 1] ∧
    (processMessage ⟨true, fun s => "thread-" ++ s⟩ ⟨1, "s1", none, none⟩
        (.ok none)).countP (fun e => isAlert e) = 0 := by
  constructor
  · decide
  · decide

/-- **C2**: on a failed delivery attempt with current retry count `r`
(0 when absent): if `r < 5` the worker persists `retryCount = r + 1`
with the error message via `updateRetryCount` and emits a warning
alert, leaving the row in place (no delete effect); if `r ≥ 5` it
emits an error alert and deletes the row, never calling
`updateRetryCount`; and across all outcomes, a delete effect occurs
only when the attempt succeeded or `r ≥ 5` — exceeding the retry bound
is the only path that drops a message without delivering it. -/
theorem retry_policy_spec (deps : WDeps) (m : WMsg) (msg : String) (hmsg : msg ≠ "") :
    (m.retryCount.getD 0 < MAX_RETRIES →
      processMessage deps m (.fail msg) =
        [WEff.updateRetryCount m.id (m.retryCount.getD 0 + 1) msg,
         WEff.alert ("discord_queue_retry:" ++ toString m.id) "Discord notification retry"
           ("Failed to send notification. Retry " ++ toString (m.retryCount.getD 0 + 1)
             ++ "/5. Error: " ++ msg) "warning"]) ∧
    (MAX_RETRIES ≤ m.retryCount.getD 0 →
      processMessage deps m (.fail msg) =
        [WEff.alert ("discord_queue_error:" ++ toString m.id) "Discord notification failed"
           "Failed to send notification after 5 retries. Message discarded." "error",
         WEff.deleteRow m.id]) ∧
    (∀ o : PostOutcome, WEff.deleteRow m.id ∈ processMessage deps m o →
      (∃ res, o = PostOutcome.ok res) ∨ MAX_RETRIES ≤ m.retryCount.getD 0) := by
  refine ⟨?_, ?_, ?_⟩
  · intro hr
    simp [processMessage, if_pos hr, hmsg]
  · intro hr
    simp [processMessage, if_neg (by omega : ¬ m.retryCount.getD 0 < MAX_RETRIES)]
  · intro o ho
    cases o with
    | ok res => exact Or.inl ⟨res, rfl⟩
    | fail msg2 =>
      right
      by_cases hr : m.retryCount.getD 0 < MAX_RETRIES
      · exfalso
        simp [processMessage, if_pos hr] at ho
      · omega

theorem rateLimitWaitMs_eq_spec (w : Int) (r : Resp) :
    rateLimitWaitMs w r = specWaitMs w r := by
  unfold rateLimitWaitMs specWaitMs retryAfterSeconds
  rcases parseRetryAfterFromText r with _ | q
  · rcases parseRetryAfterFromHeader r with _ | q2 <;> rfl
  · rfl

theorem parseWaitResult_eq_spec (wait : Bool) (r : Resp) :
    parseWaitResult wait r = specWaitResult wait r := by
  unfold parseWaitResult specWaitResult
  cases wait
  · simp
  · simp only [if_pos rfl]
    rcases r.jsonBody with _ | j
    · simp
    · simp only [Option.some_bind]
      cases j with
      | null => simp [jsTruthy, jfield]
      | bool b => cases b <;> simp [jsTruthy, jsTypeofObject, jfield]
      | num q =>
        rcases q with _ | q
        · simp [jsTruthy, jsTypeofObject, jfield]
        · by_cases hq : q = 0 <;> simp [jsTruthy, jsTypeofObject, jfield, hq]
      | str s =>
        by_cases hs : s = "" <;> simp [jsTruthy, jsTypeofObject, jfield, hs]
      | arr elems => simp [jsTruthy, jsTypeofObject, jfield]
      | obj fs =>
        simp only [jsTruthy, jsTypeofObject]
        rcases jfield (JSVal.obj fs) "channel_id" with _ | v1 <;>
          rcases jfield (JSVal.obj fs) "id" with _ | v2
        · rfl
        · cases v2 <;> rfl
        · cases v1 <;> rfl
        · cases v1 <;> cases v2 <;> rfl

theorem parseRetryAfterFromText_nonneg {r : Resp} {q : ℚ}
    (h : parseRetryAfterFromText r = some q) : 0 ≤ q := by
  unfold parseRetryAfterFromText at h
  split at h
  · exact absurd h (by simp)
  · split at h
    · exact absurd h (by simp)
    · split at h
      · next q0 heq =>
        split at h
        · next h0 => cases h; exact h0
        · exact absurd h (by simp)
      · exact absurd h (by simp)

theorem parseRetryAfterFromHeader_nonneg {r : Resp} {q : ℚ}
    (h : parseRetryAfterFromHeader r = some q) : 0 ≤ q := by
  unfold parseRetryAfterFromHeader at h
  split at h
  · exact absurd h (by simp)
  · exact absurd h (by simp)
  · next q0 heq =>
    split at h
    · exact absurd h (by simp)
    · next h0 => cases h; exact not_lt.mp h0

theorem retryAfterSeconds_nonneg {r : Resp} {q : ℚ}
    (h : retryAfterSeconds r = some q) : 0 ≤ q := by
  unfold retryAfterSeconds at h
  split at h
  · next heq => cases h; exact parseRetryAfterFromText_nonneg heq
  · exact parseRetryAfterFromHeader_nonneg h

/-- **C10**: the 429 wait is sanitized: an unparsable body, a
`retry_after` that is not a finite nonnegative number, and a
`Retry-After` header that is non-finite or negative are each ignored
(falling through to the next source or the default), so with a
nonnegative configured default the sleep duration actually used is a
(finite, by construction of the rational model) nonnegative number of
milliseconds for every possible 429 response; the configured default
`DEFAULT_RATE_LIMIT_WAIT_MS` is itself nonnegative. -/
theorem rate_limit_wait_sanitized (w : Int) (r : Resp) (hw : 0 ≤ w) :
    0 ≤ rateLimitWaitMs w r ∧
    (r.jsonBody = none → parseRetryAfterFromText r = none) ∧
    (∀ j : JSVal, r.jsonBody = some j →
      ∀ v : JSVal, jfield j "retry_after" = some v →
        (∀ q : ℚ, v ≠ JSVal.num (some q)) → parseRetryAfterFromText r = none) ∧
    (∀ j : JSVal, r.jsonBody = some j → ∀ q : ℚ,
      jfield j "retry_after" = some (JSVal.num (some q)) → q < 0 →
        parseRetryAfterFromText r = none) ∧
    (r.retryAfterHeader = some none → parseRetryAfterFromHeader r = none) ∧
    (∀ q : ℚ, r.retryAfterHeader = some (some q) → q < 0 →
      parseRetryAfterFromHeader r = none) ∧
    (0 : Int) ≤ DEFAULT_RATE_LIMIT_WAIT_MS := by
  refine ⟨?_, ?_, ?_, ?_, ?_, ?_, by norm_num [DEFAULT_RATE_LIMIT_WAIT_MS]⟩
  · unfold rateLimitWaitMs
    split
    · exact hw
    · next q heq =>
      have hq := retryAfterSeconds_nonneg heq
      exact Int.ceil_nonneg (mul_nonneg hq (by norm_num))
  · intro h
    simp [parseRetryAfterFromText, h]
  · intro j hj v hv hnum
    unfold parseRetryAfterFromText
    rw [hj]
    split
    · rfl
    · simp only [hv]
      rcases v with _ | b | oq | s | a | o <;> try rfl
      rcases oq with _ | q
      · rfl
      · exact absurd rfl (hnum q)
  · intro j hj q hv hq
    unfold parseRetryAfterFromText
    rw [hj]
    split
    · rfl
    · simp only [hv]
      rw [if_neg (not_le.mpr hq)]
  · intro h
    simp [parseRetryAfterFromHeader, h]
  · intro q h hq
    simp only [parseRetryAfterFromHeader, h]
    rw [if_pos hq]

/-- **C5**: on a 429 first response the transport determines the wait
from the body's `retry_after` if present, else from the `Retry-After`
header, else the configured default (`specWaitMs` states that
selection in the claim's order); it sleeps exactly once for that
duration and performs exactly 2 HTTP calls (one retry); if the retry
response is non-success it raises the failure carrying status and body
text; if the retry succeeds the result is exactly the ordinary success
case's result. -/
theorem rate_limit_retry_spec (wait : Bool) (deps : PostDeps) (r1 r2 : Resp)
    (h1 : r1.ok = false) (h2 : r1.status = HTTP_STATUS_TOO_MANY_REQUESTS) :
    ((postDiscordWebhook wait deps r1 r2).1.count TEff.fetchCall = 2) ∧
    ((postDiscordWebhook wait deps r1 r2).1.filter isSleepEff
      = [TEff.sleepMs (specWaitMs deps.waitOnRateLimitMs r1)]) ∧
    (r2.ok = false →
      (postDiscordWebhook wait deps r1 r2).2 = Except.error (webhookFailureMsg r2)) ∧
    (r2.ok = true →
      (postDiscordWebhook wait deps r1 r2).2 = (postDiscordWebhook wait deps r2 r2).2) := by
  have hws := rateLimitWaitMs_eq_spec deps.waitOnRateLimitMs r1
  cases hr2 : r2.ok
  · refine ⟨?_, ?_, fun _ => ?_, fun h => absurd h (by decide)⟩ <;>
      by_cases hsa : deps.showErrorAlert = true <;>
        simp [postDiscordWebhook, h1, h2, hr2, hws, rateLimitAlertEffs, hsa,
          isSleepEff, List.count_cons, List.count_append]
  · refine ⟨?_, ?_, fun h => absurd h (by decide), fun _ => ?_⟩ <;>
      simp [postDiscordWebhook, h1, h2, hr2, hws, isSleepEff, List.count_cons]

/-- **C6**: the transport raises a failure iff the final response is
non-success; on a successful final response with `wait` requested it
returns the `(id, channel_id)` pair exactly when both fields are
present in the parsed body and string-typed (`specWaitResult`) and
`none` otherwise, tolerating malformed bodies silently; without
`wait` it returns `none` unconditionally. -/
theorem success_result_spec (wait : Bool) (deps : PostDeps) (r1 r2 : Resp) :
    ((∃ e, (postDiscordWebhook wait deps r1 r2).2 = Except.error e) ↔
      (finalResp r1 r2).ok = false) ∧
    ((finalResp r1 r2).ok = true →
      (postDiscordWebhook wait deps r1 r2).2
        = Except.ok (specWaitResult wait (finalResp r1 r2))) ∧
    (wait = false → ∀ res : Option WebhookRes,
      (postDiscordWebhook wait deps r1 r2).2 = Except.ok res → res = none) := by
  have hpw1 := parseWaitResult_eq_spec wait r1
  have hpw2 := parseWaitResult_eq_spec wait r2
  refine ⟨?_, ?_, ?_⟩
  · cases hok1 : r1.ok
    · by_cases h429 : r1.status = HTTP_STATUS_TOO_MANY_REQUESTS
      · cases hok2 : r2.ok <;>
          simp [postDiscordWebhook, finalResp, hok1, h429, hok2]
      · simp [postDiscordWebhook, finalResp, hok1, h429]
    · simp [postDiscordWebhook, finalResp, hok1]
  · intro hok
    cases hok1 : r1.ok
    · by_cases h429 : r1.status = HTTP_STATUS_TOO_MANY_REQUESTS
      · rw [finalResp, if_neg (by simp [hok1]), if_pos h429] at hok ⊢
        simp [postDiscordWebhook, hok1, h429, hok, hpw2]
      · rw [finalResp, if_neg (by simp [hok1]), if_neg h429] at hok
        rw [hok1] at hok
        cases hok
    · rw [finalResp, if_pos (by simp [hok1])] at hok ⊢
      simp [postDiscordWebhook, hok1, hpw1]
  · intro hwait res hres
    subst hwait
    cases hok1 : r1.ok
    · by_cases h429 : r1.status = HTTP_STATUS_TOO_MANY_REQUESTS
      · cases hok2 : r2.ok
        · simp [postDiscordWebhook, hok1, h429, hok2] at hres
        · simp [postDiscordWebhook, hok1, h429, hok2, parseWaitResult] at hres
          exact hres.symm
      · simp [postDiscordWebhook, hok1, h429] at hres
    · simp [postDiscordWebhook, hok1, parseWaitResult] at hres
      exact hres.symm

/-- Witness for C1: the spec's thread-creation scenario (`"s1"`,
response `{ id := "m0", channel_id := "thread123" }`). -/
theorem thread_creation_spec_witness :
    (⟨1, "s1", none, none⟩ : WMsg).threadId = none ∧
    (⟨true, fun _ => "tn"⟩ : WDeps).hasOnThreadCreated = true ∧
    processMessage ⟨true, fun _ => "tn"⟩ ⟨1, "s1", none, none⟩
        (.ok (some ⟨"m0", "thread123"⟩)) =
      [WEff.post none true (some "tn"), WEff.updateThreadId "s1" "thread123",
       WEff.threadCreated "s1" "thread123", WEff.deleteRow 1] :=
  ⟨rfl, rfl,
    (thread_creation_spec ⟨true, fun _ => "tn"⟩ ⟨1, "s1", none, none⟩
      (some ⟨"m0", "thread123"⟩) rfl rfl).1 ⟨"m0", "thread123"⟩ rfl (by decide)⟩

/-- Witness for C2: a first failure (`retryCount = 0`) persists retry
count 1 and warns, deleting nothing. -/
theorem retry_policy_spec_witness :
    ("Network error" : String) ≠ "" ∧
    (⟨1, "s1", some "t", some 0⟩ : WMsg).retryCount.getD 0 < MAX_RETRIES ∧
    processMessage ⟨true, fun _ => "tn"⟩ ⟨1, "s1", some "t", some 0⟩ (.fail "Network error") =
      [WEff.updateRetryCount 1 1 "Network error",
       WEff.alert ("discord_queue_retry:" ++ toString (1 : Nat)) "Discord notification retry"
         ("Failed to send notification. Retry " ++ toString (0 + 1) ++ "/5. Error: "
           ++ "Network error") "warning"] :=
  ⟨by decide, by decide,
    (retry_policy_spec ⟨true, fun _ => "tn"⟩ ⟨1, "s1", some "t", some 0⟩ "Network error"
      (by decide)).1 (by decide)⟩

/-- Witness for C3: the spec's thread-id-convergence state — a
NULL-thread row of the session receives `"T"`, a row already holding
`"T2"` is untouched. -/
theorem updateThreadId_spec_witness :
    (updateThreadId "s1" "T"
        ⟨[⟨1, "s1", none, "b1", 10, 0, none⟩, ⟨2, "s1", none, "b2", 11, 0, none⟩,
          ⟨3, "s1", some "T2", "b3", 12, 0, none⟩], 4⟩).rows[0]?
      = some ⟨1, "s1", some "T", "b1", 10, 0, none⟩ ∧
    (updateThreadId "s1" "T"
        ⟨[⟨1, "s1", none, "b1", 10, 0, none⟩, ⟨2, "s1", none, "b2", 11, 0, none⟩,
          ⟨3, "s1", some "T2", "b3", 12, 0, none⟩], 4⟩).rows[2]?
      = some ⟨3, "s1", some "T2", "b3", 12, 0, none⟩ :=
  ⟨((updateThreadId_spec
      ⟨[⟨1, "s1", none, "b1", 10, 0, none⟩, ⟨2, "s1", none, "b2", 11, 0, none⟩,
        ⟨3, "s1", some "T2", "b3", 12, 0, none⟩], 4⟩ "s1" "T").2.2 0
      ⟨1, "s1", none, "b1", 10, 0, none⟩ rfl).1 ⟨rfl, rfl⟩,
   ((updateThreadId_spec
      ⟨[⟨1, "s1", none, "b1", 10, 0, none⟩, ⟨2, "s1", none, "b2", 11, 0, none⟩,
        ⟨3, "s1", some "T2", "b3", 12, 0, none⟩], 4⟩ "s1" "T").2.2 2
      ⟨3, "s1", some "T2", "b3", 12, 0, none⟩ rfl).2 (by decide)⟩

/-- Witness for C4 at a concrete two-row state with interleaved
sessions. -/
theorem dequeue_spec_witness :
    DBOrdered ⟨[⟨1, "a", none, "x", 5, 0, none⟩, ⟨2, "b", some "T", "y", 5, 0, none⟩], 3⟩ ∧
    ((dequeue ⟨[⟨1, "a", none, "x", 5, 0, none⟩, ⟨2, "b", some "T", "y", 5, 0, none⟩], 3⟩ 1).2
        = ⟨[⟨1, "a", none, "x", 5, 0, none⟩, ⟨2, "b", some "T", "y", 5, 0, none⟩], 3⟩ ∧
      (dequeue ⟨[⟨1, "a", none, "x", 5, 0, none⟩, ⟨2, "b", some "T", "y", 5, 0, none⟩], 3⟩
          1).1.length ≤ 1 ∧
      List.Sorted rowKeyLE (dequeueRows
        ⟨[⟨1, "a", none, "x", 5, 0, none⟩, ⟨2, "b", some "T", "y", 5, 0, none⟩], 3⟩ 1) ∧
      (dequeue ⟨[⟨1, "a", none, "x", 5, 0, none⟩, ⟨2, "b", some "T", "y", 5, 0, none⟩], 3⟩ 1).1
        = ((⟨[⟨1, "a", none, "x", 5, 0, none⟩, ⟨2, "b", some "T", "y", 5, 0, none⟩],
            3⟩ : DB).rows.take 1).map rowToMessage ∧
      ((⟨[⟨1, "a", none, "x", 5, 0, none⟩, ⟨2, "b", some "T", "y", 5, 0, none⟩],
          3⟩ : DB).rows = [] →
        (dequeue ⟨[⟨1, "a", none, "x", 5, 0, none⟩, ⟨2, "b", some "T", "y", 5, 0, none⟩],
          3⟩ 1).1 = [])) :=
  ⟨by unfold DBOrdered; decide,
    dequeue_spec ⟨[⟨1, "a", none, "x", 5, 0, none⟩, ⟨2, "b", some "T", "y", 5, 0, none⟩], 3⟩ 1
      (by unfold DBOrdered; decide)⟩

/-- Witness for C5: a 429 with a zero `retry_after` header followed by
a 204. -/
theorem rate_limit_retry_spec_witness :
    (⟨false, 429, "Too Many Requests", "", none, some (some 0)⟩ : Resp).ok = false ∧
    ((postDiscordWebhook true ⟨false, 10000⟩
        ⟨false, 429, "Too Many Requests", "", none, some (some 0)⟩
        ⟨true, 204, "No Content", "", none, none⟩).1.count TEff.fetchCall = 2 ∧
      ((postDiscordWebhook true ⟨false, 10000⟩
          ⟨false, 429, "Too Many Requests", "", none, some (some 0)⟩
          ⟨true, 204, "No Content", "", none, none⟩).1.filter isSleepEff
        = [TEff.sleepMs (specWaitMs (10000 : Int)
            ⟨false, 429, "Too Many Requests", "", none, some (some 0)⟩)]) ∧
      ((⟨true, 204, "No Content", "", none, none⟩ : Resp).ok = false →
        (postDiscordWebhook true ⟨false, 10000⟩
            ⟨false, 429, "Too Many Requests", "", none, some (some 0)⟩
            ⟨true, 204, "No Content", "", none, none⟩).2
          = Except.error (webhookFailureMsg ⟨true, 204, "No Content", "", none, none⟩)) ∧
      ((⟨true, 204, "No Content", "", none, none⟩ : Resp).ok = true →
        (postDiscordWebhook true ⟨false, 10000⟩
            ⟨false, 429, "Too Many Requests", "", none, some (some 0)⟩
            ⟨true, 204, "No Content", "", none, none⟩).2
          = (postDiscordWebhook true ⟨false, 10000⟩ ⟨true, 204, "No Content", "", none, none⟩
              ⟨true, 204, "No Content", "", none, none⟩).2)) :=
  ⟨rfl,
    rate_limit_retry_spec true ⟨false, 10000⟩
      ⟨false, 429, "Too Many Requests", "", none, some (some 0)⟩
      ⟨true, 204, "No Content", "", none, none⟩ rfl rfl⟩

/-- Witness for C6: a successful `wait` response carrying both string
fields yields the pair. -/
theorem success_result_spec_witness :
    (finalResp ⟨true, 200, "OK", "", some (JSVal.obj [("id", JSVal.str "m0"),
        ("channel_id", JSVal.str "c0")]), none⟩
      ⟨true, 200, "OK", "", some (JSVal.obj [("id", JSVal.str "m0"),
        ("channel_id", JSVal.str "c0")]), none⟩).ok = true ∧
    (postDiscordWebhook true ⟨false, 10000⟩
        ⟨true, 200, "OK", "", some (JSVal.obj [("id", JSVal.str "m0"),
          ("channel_id", JSVal.str "c0")]), none⟩
        ⟨true, 200, "OK", "", some (JSVal.obj [("id", JSVal.str "m0"),
          ("channel_id", JSVal.str "c0")]), none⟩).2
      = Except.ok (specWaitResult true
          (finalResp ⟨true, 200, "OK", "", some (JSVal.obj [("id", JSVal.str "m0"),
              ("channel_id", JSVal.str "c0")]), none⟩
            ⟨true, 200, "OK", "", some (JSVal.obj [("id", JSVal.str "m0"),
              ("channel_id", JSVal.str "c0")]), none⟩)) :=
  ⟨rfl,
    (success_result_spec true ⟨false, 10000⟩
      ⟨true, 200, "OK", "", some (JSVal.obj [("id", JSVal.str "m0"),
        ("channel_id", JSVal.str "c0")]), none⟩
      ⟨true, 200, "OK", "", some (JSVal.obj [("id", JSVal.str "m0"),
        ("channel_id", JSVal.str "c0")]), none⟩).2.1 rfl⟩

/-- Witness for C7: an empty queue — one dequeue, back to idle. -/
theorem worker_auto_stop_witness :
    (1 : Nat) ≤ 1 ∧
    startWorker ⟨true, fun _ => "tn"⟩ ⟨false⟩ 1 [] []
      = ([WEff.dequeue BATCH_SIZE], ⟨false⟩) :=
  ⟨by decide,
    (worker_auto_stop ⟨true, fun _ => "tn"⟩ 1 [] [] (by decide) (Or.inl rfl)).1⟩

/-- Witness for C8: with the flag already aborted at the loop top, the
run performs no effect at all. -/
theorem poll_cancellation_witness :
    (⟨true, []⟩ : RunSt).aborted = true ∧
    (poll ⟨true, fun _ => "tn"⟩ 2 ⟨true, []⟩
        [[(⟨1, "s1", some "t1", none⟩, PostOutcome.ok none)]]).1 = [] :=
  ⟨rfl,
    (poll_cancellation ⟨true, fun _ => "tn"⟩ 2 ⟨true, []⟩
      [[(⟨1, "s1", some "t1", none⟩, PostOutcome.ok none)]]).1 rfl⟩

/-- Witness for C9: enqueue into the empty table and read the row
back, payload structurally intact. -/
theorem enqueue_dequeue_roundtrip_witness :
    DBWF DB.empty ∧
    (dequeue (enqueue ⟨"s1", none, JsonV.obj (JObj.cons "content" (JsonV.str "hi") JObj.nil)⟩
          42 DB.empty) (DB.empty.rows.length + 1)).1.getLast?
      = some ⟨1, "s1", none,
          some (JsonV.obj (JObj.cons "content" (JsonV.str "hi") JObj.nil)), 42, 0, none⟩ :=
  ⟨DBWF_empty,
    enqueue_dequeue_roundtrip DB.empty
      ⟨"s1", none, JsonV.obj (JObj.cons "content" (JsonV.str "hi") JObj.nil)⟩ 42 DBWF_empty
      (by intro r hr; simp [DB.empty] at hr)⟩

/-- Witness for C10: a 429 with an unparsable body and a non-finite
`Retry-After` header falls back to the nonnegative default. -/
theorem rate_limit_wait_sanitized_witness :
    (0 : Int) ≤ 10000 ∧
    (0 ≤ rateLimitWaitMs (10000 : Int) ⟨false, 429, "TMR", "zzz", none, some none⟩ ∧
      parseRetryAfterFromText ⟨false, 429, "TMR", "zzz", none, some none⟩ = none ∧
      parseRetryAfterFromHeader ⟨false, 429, "TMR", "zzz", none, some none⟩ = none) :=
  ⟨by norm_num,
    (rate_limit_wait_sanitized (10000 : Int) ⟨false, 429, "TMR", "zzz", none, some none⟩
      (by norm_num)).1,
    by
      have h := (rate_limit_wait_sanitized (10000 : Int)
        ⟨false, 429, "TMR", "zzz", none, some none⟩ (by norm_num)).2.1 rfl
      exact h,
    (rate_limit_wait_sanitized (10000 : Int) ⟨false, 429, "TMR", "zzz", none, some none⟩
      (by norm_num)).2.2.2.2.1 rfl⟩

end DiscordNotify

